import Mathlib

/-!
Verification development for the kpm publish path: a shallow embedding of
pkg/opt/opt.go and pkg/cmd/cmd_push.go, together with models (taken from the
specification) of the collaborators that are outside the sampled sources
(kpm utils, the package loader and stager, os.RemoveAll, the settings
construction and the file-backed package-cache lock).
-/

namespace Kpm

/-- Event kinds of the kpm reporter used by the embedded functions. -/
inductive EventType where
  | IsNotUrl
  | UrlSchemeNotOci
  | IsNotRef
  | UnsupportOciUrlScheme
  | UnknownEnv
  | Bug
  deriving DecidableEq, Repr

/-- Structured reporter event: a kind together with a message. -/
structure KpmEvent where
  type : EventType
  msg : String := ""
  deriving DecidableEq, Repr

/-- Errors surfaced by the embedded kpm functions: the sentinel errors of
pkg/errors used by cmd_push.go, or a reporter event. -/
inductive KpmError where
  | internalBug
  | failedPushToOci
  | eventErr (e : KpmEvent)
  deriving DecidableEq, Repr

/-! ## Model of the fragment of Go net/url used by ParseOciUrl -/

/-- Minimal URL value: scheme, host (authority with userinfo dropped) and
path, the three fields read by ParseOciUrl and built by
genDefaultOciUrlForKclPkg. -/
structure URL where
  scheme : String
  host : String
  path : String
  deriving DecidableEq, Repr

/-- ASCII lowercasing of a single character; Go lowercases the scheme after
scanning it, and a scanned scheme only contains ASCII characters. -/
def lowerChar (c : Char) : Char :=
  if 'A' ≤ c ∧ c ≤ 'Z' then Char.ofNat (c.toNat + 32) else c

/-- Modelled from Go net/url getScheme: scan the input for a scheme.  A colon
after one or more scheme characters ends the scheme; a colon first is the
error "missing protocol scheme"; a digit, plus, minus or dot may continue a
scheme but not begin one; any other character means there is no scheme and the
whole original input is the remainder. -/
def getSchemeGo (orig : List Char) (acc : List Char) : List Char →
    Except String (List Char × List Char)
  | [] => .ok ([], orig)
  | c :: cs =>
    if c.isAlpha then getSchemeGo orig (acc ++ [c]) cs
    else if c = ':' then
      if acc = [] then .error "missing protocol scheme"
      else .ok (acc, cs)
    else if c.isDigit ∨ c = '+' ∨ c = '-' ∨ c = '.' then
      if acc = [] then .ok ([], orig)
      else getSchemeGo orig (acc ++ [c]) cs
    else .ok ([], orig)

/-- Host part of an authority: the text after the last at-sign, userinfo being
dropped; the host validation done by Go parseAuthority is elided. -/
def hostFromAuthority (l : List Char) : List Char :=
  (l.reverse.takeWhile (fun c => c != '@')).reverse

/-- Continuation of the net/url Parse model once the scheme is known and the
query has been cut off: an authority after a double slash is split from the
path (unless the scheme is empty and a third slash follows), a remainder with
a single leading slash is a rootless-authority path, and a remainder without a
leading slash is the non-hierarchical part (host and path empty) when a
scheme is present, a colon-free relative path otherwise. -/
def urlParseAfterScheme (scheme : String) (rest : List Char) : Except String URL :=
  match rest with
  | '/' :: '/' :: more =>
    if scheme = "" ∧ more.head? = some '/' then
      .ok ⟨scheme, "", String.mk rest⟩
    else
      .ok ⟨scheme, String.mk (hostFromAuthority (more.takeWhile (fun c => c != '/'))),
           String.mk (more.dropWhile (fun c => c != '/'))⟩
  | '/' :: _ =>
    .ok ⟨scheme, "", String.mk rest⟩
  | _ =>
    if scheme ≠ "" then .ok ⟨scheme, "", ""⟩
    else if (rest.takeWhile (fun c => c != '/')).contains ':' then
      .error "first path segment in URL cannot contain colon"
    else .ok ⟨"", "", String.mk rest⟩

/-- Modelled from Go net/url Parse (viaRequest false) restricted to the
scheme, host and path fields: the fragment is cut off, the scheme is scanned
and lowercased, the query is cut off, and the remainder is parsed by
urlParseAfterScheme.  Percent escapes and host validation are elided. -/
def urlParse (s : String) : Except String URL :=
  match getSchemeGo (s.toList.takeWhile (fun c => c != '#')) []
      (s.toList.takeWhile (fun c => c != '#')) with
  | .error e => .error e
  | .ok (schemeCs, rest0) =>
    urlParseAfterScheme (String.mk (schemeCs.map lowerChar))
      (rest0.takeWhile (fun c => c != '?'))

/-- Modelled from Go net/url URL.String restricted to scheme, host and path
(escaping elided): the scheme with a colon, a double slash when a host or a
path is present, the host, and the path with a separating slash inserted when
the path does not already start with one. -/
def urlString (u : URL) : String :=
  (if u.scheme = "" then "" else u.scheme ++ ":") ++
  (if (u.scheme ≠ "" ∨ u.host ≠ "") ∧ (u.host ≠ "" ∨ u.path ≠ "") then "//" else "") ++
  u.host ++
  (if u.path ≠ "" ∧ u.path.toList.head? ≠ some '/' ∧ u.host ≠ "" then "/" else "") ++
  u.path

/-! ## Settings (pkg/settings) -/

/-- Persisted kpm configuration, as in the default config file. -/
structure KpmConf where
  DefaultOciRegistry : String
  DefaultOciRepo : String
  DefaultOciPlainHttp : Bool
  deriving DecidableEq, Repr

/-- Default configuration written on first use (TestDefaultKpmConf). -/
def DefaultKpmConf : KpmConf := ⟨"ghcr.io", "kcl-lang", false⟩

/-- Process-wide settings: the configuration plus the diagnostic slot. -/
structure Settings where
  Conf : KpmConf
  ErrorEvent : Option KpmEvent
  deriving DecidableEq, Repr

def Settings.DefaultOciRegistry (s : Settings) : String := s.Conf.DefaultOciRegistry

def Settings.DefaultOciRepo (s : Settings) : String := s.Conf.DefaultOciRepo

def Settings.DefaultOciPlainHttp (s : Settings) : Bool := s.Conf.DefaultOciPlainHttp

/-- Modelled from the spec: the settings construction (pkg/settings
settings.go is not part of the sampled sources) layers environment overrides
over the persisted configuration.  The three recognized variables are passed
as optional values, none standing for an unset or empty variable.  The
plain-HTTP override accepts exactly the tokens on and off, as pinned by
TestSettingEnv, where the value true is rejected as an unknown environment
variable; any other value keeps the flag at its prior value, records one
unknown-environment-variable event naming the KEY=VALUE pair, and still
yields usable settings. -/
def loadSettingsFromEnv (conf0 : KpmConf) (reg repo plainHttp : Option String) :
    Settings :=
  let conf1 := match reg with
    | some r => { conf0 with DefaultOciRegistry := r }
    | none => conf0
  let conf2 := match repo with
    | some r => { conf1 with DefaultOciRepo := r }
    | none => conf1
  match plainHttp with
  | none => ⟨conf2, none⟩
  | some v =>
    if v = "on" then ⟨{ conf2 with DefaultOciPlainHttp := true }, none⟩
    else if v = "off" then ⟨{ conf2 with DefaultOciPlainHttp := false }, none⟩
    else ⟨conf2, some ⟨.UnknownEnv,
      "kpm: unknown environment variable OCI_REG_PLAIN_HTTP=" ++ v⟩⟩

/-! ## Registry coordinate parsing (pkg/opt/opt.go) -/

/-- OciOptions from opt.go: registry host, repository, tag and package name. -/
structure OciOptions where
  Reg : String := ""
  Repo : String := ""
  Tag : String := ""
  PkgName : String := ""
  deriving DecidableEq, Repr

/-- Model of Go strings.Split with the single-character separator colon
(OCI_SEPARATOR): the empty input yields one empty segment, and every colon
starts a new segment. -/
def splitOnColon : List Char → List (List Char)
  | [] => [[]]
  | c :: cs =>
    let r := splitOnColon cs
    if c = ':' then [] :: r
    else match r with
      | [] => [[c]]
      | h :: t => (c :: h) :: t

/-- ParseOciUrl from opt.go: parse the string as a URL (IsNotUrl on failure),
require the oci scheme (UrlSchemeNotOci otherwise), and return the host and
path with the tag left empty. -/
def ParseOciUrl (ociUrl : String) : Except KpmEvent OciOptions :=
  match urlParse ociUrl with
  | .error _ => .error ⟨.IsNotUrl, ""⟩
  | .ok u =>
    if u.scheme ≠ "oci" then .error ⟨.UrlSchemeNotOci, ""⟩
    else .ok { Reg := u.host, Repo := u.path }

/-- ParseOciRef from opt.go; the process-global settings read through
GetSettings are passed explicitly.  The input is split on the colon
separator, a settings diagnostic aborts, one segment is a bare repository,
two segments are repository and tag, and anything longer is IsNotRef. -/
def ParseOciRef (st : Settings) (ociRef : String) : Except KpmError OciOptions :=
  let oci_address := (splitOnColon ociRef.toList).map String.mk
  match st.ErrorEvent with
  | some e => .error (.eventErr e)
  | none =>
    match oci_address with
    | [r] => .ok { Reg := st.DefaultOciRegistry, Repo := r }
    | [r, t] => .ok { Reg := st.DefaultOciRegistry, Repo := r, Tag := t }
    | _ => .error (.eventErr ⟨.IsNotRef, ""⟩)

/-- Reporter lines printed by ParseOciOptionFromString when a tag argument
accompanies a reference input (quotation marks of the Go literals elided). -/
def tagIgnoredWarnings : List String :=
  ["kpm: kpm get version from oci reference <repo_name>:<repo_tag>",
   "kpm: arg --tag is invalid for oci reference"]

/-- ParseOciOptionFromString from opt.go, also returning the reporter lines it
prints.  A URL-parse failure of kind IsNotUrl or UrlSchemeNotOci falls back to
reference parsing, warning when the tag argument is non-empty; on a URL
success the tag argument is installed.  On an event of any other kind the Go
code would dereference a nil pointer; that unreachable branch is modelled as a
Bug event. -/
def ParseOciOptionFromString (st : Settings) (oci : String) (tag : String) :
    Except KpmError (OciOptions × List String) :=
  match ParseOciUrl oci with
  | .error event =>
    if event.type = .IsNotUrl ∨ event.type = .UrlSchemeNotOci then
      match ParseOciRef st oci with
      | .error err => .error err
      | .ok ociOpt =>
        .ok (ociOpt, if tag.length ≠ 0 then tagIgnoredWarnings else [])
    else .error (.eventErr ⟨.Bug, ""⟩)
  | .ok ociOpt => .ok ({ ociOpt with Tag := tag }, [])

/-- ParseOciOptionFromOciUrl from opt.go: parse the URL and install the tag
argument unchanged. -/
def ParseOciOptionFromOciUrl (url tag : String) : Except KpmEvent OciOptions :=
  match ParseOciUrl url with
  | .error err => .error err
  | .ok ociOpt => .ok { ociOpt with Tag := tag }

/-! ## Path joining (kpm utils, modelled from the spec) -/

/-- Remove one trailing slash, as Go strings.TrimSuffix with a slash. -/
def trimSlashEnd (l : List Char) : List Char :=
  match l.reverse with
  | '/' :: t => t.reverse
  | _ => l

/-- Remove one leading slash, as Go strings.TrimPrefix with a slash. -/
def trimSlashStart (l : List Char) : List Char :=
  match l with
  | '/' :: t => t
  | _ => l

/-- Modelled from the spec: repository-path joining with separator
normalization (kpm utils.JoinPath is not part of the sampled sources): one
trailing separator of the base and one leading separator of the element are
trimmed and the two parts are joined with a single slash. -/
def JoinPath (base elem : String) : String :=
  String.mk (trimSlashEnd base.toList ++ '/' :: trimSlashStart elem.toList)

/-! ## Publish pipeline (pkg/cmd/cmd_push.go) -/

/-- Package identity supplied by the external package loader. -/
structure KclPkg where
  homePath : String
  pkgName : String
  pkgTag : String
  deriving DecidableEq, Repr

/-- Recorded invocation of the external push transport. -/
structure PushCall where
  tarPath : String
  reg : String
  repo : String
  tag : String
  deriving DecidableEq, Repr

/-- Observable state threaded through the pipeline: the set of existing
filesystem paths (a list whose order carries no meaning), the reporter lines
printed so far, and the push calls made so far. -/
structure PipeState where
  fs : List String
  reports : List String
  pushed : List PushCall
  deriving DecidableEq, Repr

/-- Oracle fixing the outcomes of the external collaborators for one run:
the package loader on the archive, the stager, the push transport, and
per-path success of os.RemoveAll. -/
structure PipeEnv where
  loadTarResult : Except KpmError KclPkg
  packageResult : Except KpmError String
  pushResult : Option KpmError
  removeFails : String → Bool

/-- Add a path to the filesystem set. -/
def addPath (p : String) (fs : List String) : List String :=
  if p ∈ fs then fs else p :: fs

/-- Remove a path from the filesystem set. -/
def removePath (p : String) (fs : List String) : List String :=
  fs.filter (fun q => q ≠ p)

/-- Modelled os.RemoveAll: under the oracle it either fails and leaves the
path in place, or removes the path and succeeds. -/
def removeAll (env : PipeEnv) (p : String) (st : PipeState) :
    Option KpmError × PipeState :=
  if env.removeFails p then (some .internalBug, st)
  else (none, { st with fs := removePath p st.fs })

/-- Modelled from the spec: pkg.LoadKclPkgFromTar extracts the archive into a
fresh temporary directory and returns the identity rooted there; on failure it
leaves no partial extraction behind (delete-on-error contract of the stager),
so the state is unchanged. -/
def loadKclPkgFromTar (env : PipeEnv) (st : PipeState) :
    Except KpmError KclPkg × PipeState :=
  match env.loadTarResult with
  | .error e => (.error e, st)
  | .ok p => (.ok p, { st with fs := addPath p.homePath st.fs })

/-- Modelled from the spec: KclPkg.PackageCurrentPkgPath stages the package
into an archive at the returned path; on failure no partial archive is left
(delete-on-error contract of the stager). -/
def packageCurrentPkgPath (env : PipeEnv) (st : PipeState) :
    Except KpmError String × PipeState :=
  match env.packageResult with
  | .error e => (.error e, st)
  | .ok tarPath => (.ok tarPath, { st with fs := addPath tarPath st.fs })

/-- Modelled from the spec: oci.Push transfers the archive; the call and its
arguments are recorded and the outcome comes from the oracle. -/
def ociPush (env : PipeEnv) (tarPath reg repo tag : String) (st : PipeState) :
    Option KpmError × PipeState :=
  (env.pushResult, { st with pushed := st.pushed ++ [⟨tarPath, reg, repo, tag⟩] })

/-- genDefaultOciUrlForKclPkg from cmd_push.go: abort on a settings
diagnostic, otherwise build the oci URL from the default registry host and
the default repository joined with the package name. -/
def genDefaultOciUrlForKclPkg (st : Settings) (p : KclPkg) : Except KpmError String :=
  match st.ErrorEvent with
  | some e => .error (.eventErr e)
  | none =>
    let urlPath := JoinPath st.DefaultOciRepo p.pkgName
    .ok (urlString ⟨"oci", st.DefaultOciRegistry, urlPath⟩)

/-- Steps 3 and 4 of pushPackage: resolve the oci options from the URL and the
package tag, report, and push.  A parse failure of any kind is replaced by the
UnsupportOciUrlScheme error. -/
def pushResolveAndPush (env : PipeEnv) (kclPkg : KclPkg) (tarPath : String)
    (ociUrl : String) (st : PipeState) : Except KpmError Unit × PipeState :=
  match ParseOciOptionFromOciUrl ociUrl kclPkg.pkgTag with
  | .error _ =>
    (.error (.eventErr ⟨.UnsupportOciUrlScheme, "only support url scheme oci://."⟩), st)
  | .ok ociOpts =>
    let st1 := { st with reports := st.reports ++
      ["kpm: package " ++ kclPkg.pkgName ++ " will be pushed."] }
    match ociPush env tarPath ociOpts.Reg ociOpts.Repo ociOpts.Tag st1 with
    | (some e, st2) => (.error e, st2)
    | (none, st2) => (.ok (), st2)

/-- Reporter lines printed when the default oci URL cannot be generated
(quotation marks elided). -/
def genFailReports : List String :=
  ["kpm: failed to generate default oci url for current package.",
   "kpm: run kpm push help for more information."]

/-- Body of pushPackage after staging: step 2 generates the default URL when
none was given (failing with FailedPushToOci on a generation error or an empty
generated URL), then steps 3 and 4 run. -/
def pushPackageBody (env : PipeEnv) (settings : Settings) (ociUrl0 : String)
    (kclPkg : KclPkg) (tarPath : String) (st : PipeState) :
    Except KpmError Unit × PipeState :=
  if ociUrl0.length = 0 then
    match genDefaultOciUrlForKclPkg settings kclPkg with
    | .error _ =>
      (.error .failedPushToOci, { st with reports := st.reports ++ genFailReports })
    | .ok u =>
      if u.length = 0 then
        (.error .failedPushToOci, { st with reports := st.reports ++ genFailReports })
      else pushResolveAndPush env kclPkg tarPath u st
  else pushResolveAndPush env kclPkg tarPath ociUrl0 st

/-- pushPackage from cmd_push.go: stage the archive, run the body, then run
the deferred cleanup of the staged archive when it exists.  The cleanup error
is assigned to a local variable that is not the (unnamed) return value, so the
primary result is fixed before the deferred function runs and the cleanup
outcome is discarded. -/
def pushPackage (env : PipeEnv) (settings : Settings) (ociUrl : String)
    (kclPkg : KclPkg) (vendorMode : Bool) (st : PipeState) :
    Except KpmError Unit × PipeState :=
  match packageCurrentPkgPath env st with
  | (.error e, st1) => (.error e, st1)
  | (.ok tarPath, st1) =>
    let r := pushPackageBody env settings ociUrl kclPkg tarPath st1
    let st2 := if tarPath ∈ r.2.fs then (removeAll env tarPath r.2).2 else r.2
    (r.1, st2)

/-- pushTarPackage from cmd_push.go: load the package from the archive, push
it, then run the deferred cleanup of the temporary extraction directory when
it exists.  When loading failed the deferred function sees a nil package and
does nothing; as in pushPackage the cleanup error only reaches a dead local
variable. -/
def pushTarPackage (env : PipeEnv) (settings : Settings)
    (ociUrl localTarPath : String) (vendorMode : Bool) (st : PipeState) :
    Except KpmError Unit × PipeState :=
  match loadKclPkgFromTar env st with
  | (.error e, st1) => (.error e, st1)
  | (.ok kclPkg, st1) =>
    let r := pushPackage env settings ociUrl kclPkg vendorMode st1
    let st2 := if kclPkg.homePath ∈ r.2.fs then (removeAll env kclPkg.homePath r.2).2
               else r.2
    (r.1, st2)

/-! ## Package cache lock (modelled from the spec, pinned by
TestPackageCacheLock) -/

/-- State of the two-goroutine program of TestPackageCacheLock: a program
counter per goroutine (0 before acquire, 1 after acquire, 1 + k after k
appends, 11 before release, 12 after release), the lock holder (the flock on
the package-cache lock file, modelled from the spec as at most one holder),
and the shared list.  The entry (t, i) stands for the appended line
"goroutine t: i". -/
structure LockSt where
  pc1 : Nat
  pc2 : Nat
  lock : Option Bool
  log : List (Bool × Nat)
  deriving DecidableEq, Repr

/-- Lines appended by one goroutine: (t, 0) through (t, n - 1). -/
def seqOf (t : Bool) (n : Nat) : List (Bool × Nat) :=
  (List.range n).map (fun i => (t, i))

/-- Modelled from the spec: one interleaving step of the two goroutines.
AcquirePackageCacheLock blocks until the lock is free and makes the caller the
single holder; the ten appends run inside the critical section; Release frees
the lock.  Goroutine 1 is false, goroutine 2 is true. -/
inductive LockStep : LockSt → LockSt → Prop where
  | acq1 (p2 : Nat) (log : List (Bool × Nat)) :
      LockStep ⟨0, p2, none, log⟩ ⟨1, p2, some false, log⟩
  | app1 (k p2 : Nat) (l : Option Bool) (log : List (Bool × Nat)) (hk : k < 10) :
      LockStep ⟨k + 1, p2, l, log⟩ ⟨k + 2, p2, l, log ++ [(false, k)]⟩
  | rel1 (p2 : Nat) (l : Option Bool) (log : List (Bool × Nat)) :
      LockStep ⟨11, p2, l, log⟩ ⟨12, p2, none, log⟩
  | acq2 (p1 : Nat) (log : List (Bool × Nat)) :
      LockStep ⟨p1, 0, none, log⟩ ⟨p1, 1, some true, log⟩
  | app2 (k p1 : Nat) (l : Option Bool) (log : List (Bool × Nat)) (hk : k < 10) :
      LockStep ⟨p1, k + 1, l, log⟩ ⟨p1, k + 2, l, log ++ [(true, k)]⟩
  | rel2 (p1 : Nat) (l : Option Bool) (log : List (Bool × Nat)) :
      LockStep ⟨p1, 11, l, log⟩ ⟨p1, 12, none, log⟩

/-- Initial state of the test program. -/
def lockInit : LockSt := ⟨0, 0, none, []⟩

/-- Reachability under any interleaving of the two goroutines. -/
abbrev LockReach : LockSt → LockSt → Prop := Relation.ReflTransGen LockStep

/-- Inductive invariant of the lock program over the four state components:
either nobody is mid-section and the log is a concatenation of completed full
sections, or exactly one goroutine is mid-section, holds the lock, and has
contributed exactly its first pc - 1 lines after the full section of the
finished goroutine (if any). -/
def LockInvP (p1 p2 : Nat) (l : Option Bool) (log : List (Bool × Nat)) : Prop :=
  (p1 = 0 ∧ p2 = 0 ∧ l = none ∧ log = []) ∨
  (1 ≤ p1 ∧ p1 ≤ 11 ∧ p2 = 0 ∧ l = some false ∧ log = seqOf false (p1 - 1)) ∨
  (1 ≤ p2 ∧ p2 ≤ 11 ∧ p1 = 0 ∧ l = some true ∧ log = seqOf true (p2 - 1)) ∨
  (p1 = 12 ∧ p2 = 0 ∧ l = none ∧ log = seqOf false 10) ∨
  (p2 = 12 ∧ p1 = 0 ∧ l = none ∧ log = seqOf true 10) ∨
  (p1 = 12 ∧ 1 ≤ p2 ∧ p2 ≤ 11 ∧ l = some true ∧
    log = seqOf false 10 ++ seqOf true (p2 - 1)) ∨
  (p2 = 12 ∧ 1 ≤ p1 ∧ p1 ≤ 11 ∧ l = some false ∧
    log = seqOf true 10 ++ seqOf false (p1 - 1)) ∨
  (p1 = 12 ∧ p2 = 12 ∧ l = none ∧
    (log = seqOf false 10 ++ seqOf true 10 ∨ log = seqOf true 10 ++ seqOf false 10))

/-- Invariant of the lock program as a predicate on states. -/
def LockInv (s : LockSt) : Prop := LockInvP s.pc1 s.pc2 s.lock s.log

/-! ## Character safety predicates and concrete fixtures -/

/-- Characters of a registry host that survive the URL round trip: no path,
query or fragment separator and no userinfo marker. -/
def hostSafe (c : Char) : Prop := c ≠ '/' ∧ c ≠ '#' ∧ c ≠ '?' ∧ c ≠ '@'

/-- Characters of one repository-path segment that survive the URL round
trip: no path, query or fragment separator. -/
def segSafe (c : Char) : Prop := c ≠ '/' ∧ c ≠ '#' ∧ c ≠ '?'

instance (c : Char) : Decidable (hostSafe c) := by unfold hostSafe; infer_instance

instance (c : Char) : Decidable (segSafe c) := by unfold segSafe; infer_instance

/-- Settings value with the default configuration and a clean diagnostic. -/
def testSettings : Settings := ⟨DefaultKpmConf, none⟩

/-- Concrete package identity used to exercise the pipeline. -/
def testPkg : KclPkg := ⟨"/tmp/extract", "mypkg", "0.0.1"⟩

/-- Empty initial pipeline state. -/
def pipeSt0 : PipeState := ⟨[], [], []⟩

/-- Oracle for a run in which every external collaborator succeeds. -/
def envOk : PipeEnv := ⟨.ok testPkg, .ok "/tmp/pkg.tar", none, fun _ => false⟩

/-- Oracle for a run in which everything succeeds except the removal of the
staged archive. -/
def envCleanupFail : PipeEnv :=
  ⟨.ok testPkg, .ok "/tmp/pkg.tar", none, fun p => p == "/tmp/pkg.tar"⟩

/-! ## Helper lemmas: strings and lists -/

theorem mk_toList (s : String) : String.mk s.toList = s := rfl

theorem toList_append (a b : String) : (a ++ b).toList = a.toList ++ b.toList := rfl

theorem string_length_eq (s : String) : s.length = s.toList.length := rfl

theorem string_ne_empty {s : String} (h : s.toList ≠ []) : s ≠ "" := by
  intro he
  subst he
  exact h rfl

theorem takeWhile_all {α} (p : α → Bool) :
    ∀ (l : List α), (∀ c ∈ l, p c = true) → l.takeWhile p = l
  | [], _ => rfl
  | c :: cs, h => by
    have hc := h c (List.mem_cons_self c cs)
    simp only [List.takeWhile_cons, hc, if_true]
    exact congrArg (c :: ·) (takeWhile_all p cs (fun x hx => h x (List.mem_cons_of_mem c hx)))

theorem takeWhile_app (p : Char → Bool) (c : Char) (t : List Char) :
    ∀ (l : List Char), (∀ x ∈ l, p x = true) → p c = false →
      (l ++ c :: t).takeWhile p = l
  | [], _, hc => by simp [List.takeWhile_cons, hc]
  | a :: as, h, hc => by
    have ha := h a (List.mem_cons_self a as)
    simp only [List.cons_append, List.takeWhile_cons, ha, if_true]
    exact congrArg (a :: ·)
      (takeWhile_app p c t as (fun x hx => h x (List.mem_cons_of_mem a hx)) hc)

theorem dropWhile_app (p : Char → Bool) (c : Char) (t : List Char) :
    ∀ (l : List Char), (∀ x ∈ l, p x = true) → p c = false →
      (l ++ c :: t).dropWhile p = c :: t
  | [], _, hc => by simp [List.dropWhile_cons, hc]
  | a :: as, h, hc => by
    have ha := h a (List.mem_cons_self a as)
    simp only [List.cons_append, List.dropWhile_cons, ha, if_true]
    exact dropWhile_app p c t as (fun x hx => h x (List.mem_cons_of_mem a hx)) hc

theorem hostFromAuthority_no_at (l : List Char) (h : ∀ x ∈ l, x ≠ '@') :
    hostFromAuthority l = l := by
  unfold hostFromAuthority
  rw [takeWhile_all _ l.reverse (fun x hx => by
    simp only [bne_iff_ne, ne_eq, decide_eq_true_eq]
    exact h x (List.mem_reverse.mp hx)), List.reverse_reverse]

theorem trimSlashEnd_eq (l : List Char) (h : ∀ x ∈ l, x ≠ '/') :
    trimSlashEnd l = l := by
  unfold trimSlashEnd
  split
  · next t heq =>
    exfalso
    exact h '/' (List.mem_reverse.mp (heq ▸ List.mem_cons_self '/' t)) rfl
  · rfl

theorem trimSlashStart_eq (l : List Char) (h : ∀ x ∈ l, x ≠ '/') :
    trimSlashStart l = l := by
  unfold trimSlashStart
  split
  · next t => exact absurd rfl (h '/' (List.mem_cons_self '/' t))
  · rfl

/-! ## Helper lemmas: URL parsing and building -/

theorem getScheme_oci (orig rest : List Char) :
    getSchemeGo orig [] ('o' :: 'c' :: 'i' :: ':' :: rest) = .ok (['o', 'c', 'i'], rest) :=
  rfl

theorem urlString_full (host path : String) (hh : host.toList ≠ [])
    (hp : path.toList ≠ []) (hhead : path.toList.head? ≠ some '/') :
    urlString ⟨"oci", host, path⟩ = "oci:" ++ "//" ++ host ++ "/" ++ path := by
  have hhost : host ≠ "" := string_ne_empty hh
  have hpath : path ≠ "" := string_ne_empty hp
  unfold urlString
  rw [if_neg (by simp : ¬ ("oci" : String) = "")]
  rw [if_pos ⟨Or.inl (by simp), Or.inl hhost⟩]
  rw [if_pos ⟨hpath, hhead, hhost⟩]
  simp [String.append_assoc]

theorem urlParseAfterScheme_authority (scheme : String) (H P : List Char)
    (hs : scheme ≠ "") (hH : ∀ x ∈ H, (x != '/') = true) :
    urlParseAfterScheme scheme ('/' :: '/' :: (H ++ '/' :: P))
      = .ok ⟨scheme, String.mk (hostFromAuthority H), String.mk ('/' :: P)⟩ := by
  simp only [urlParseAfterScheme]
  rw [if_neg (fun hcon => hs hcon.1)]
  rw [takeWhile_app _ _ _ H hH (by decide), dropWhile_app _ _ _ H hH (by decide)]

theorem urlParse_roundtrip (host path : String)
    (hh : host.toList ≠ []) (hhs : ∀ c ∈ host.toList, hostSafe c)
    (hp : path.toList ≠ []) (hhead : path.toList.head? ≠ some '/')
    (hps : ∀ c ∈ path.toList, c ≠ '#' ∧ c ≠ '?') :
    urlParse (urlString ⟨"oci", host, path⟩) = .ok ⟨"oci", host, "/" ++ path⟩ := by
  rw [urlString_full host path hh hp hhead]
  have hlist : ("oci:" ++ "//" ++ host ++ "/" ++ path).toList
      = 'o' :: 'c' :: 'i' :: ':' :: '/' :: '/' :: (host.toList ++ '/' :: path.toList) := by
    simp [toList_append]
  have hnofrag : ∀ c ∈ 'o' :: 'c' :: 'i' :: ':' :: '/' :: '/' ::
      (host.toList ++ '/' :: path.toList), (c != '#') = true := by
    intro c hc
    simp only [List.mem_cons, List.mem_append] at hc
    simp only [bne_iff_ne, ne_eq]
    rcases hc with h | h | h | h | h | h | h | ⟨h | h⟩
    · subst h; decide
    · subst h; decide
    · subst h; decide
    · subst h; decide
    · subst h; decide
    · subst h; decide
    · exact (hhs c h).2.1
    · subst h; decide
    · exact (hps c h).1
  have hnoquery : ∀ c ∈ '/' :: '/' :: (host.toList ++ '/' :: path.toList),
      (c != '?') = true := by
    intro c hc
    simp only [List.mem_cons, List.mem_append] at hc
    simp only [bne_iff_ne, ne_eq]
    rcases hc with h | h | h | ⟨h | h⟩
    · subst h; decide
    · subst h; decide
    · exact (hhs c h).2.2.1
    · subst h; decide
    · exact (hps c h).2
  simp only [urlParse, hlist]
  rw [takeWhile_all _ _ hnofrag]
  rw [getScheme_oci]
  show urlParseAfterScheme (String.mk (['o', 'c', 'i'].map lowerChar))
      (List.takeWhile (fun c => c != '?')
        ('/' :: '/' :: (host.toList ++ '/' :: path.toList)))
    = Except.ok ⟨"oci", host, "/" ++ path⟩
  have hsch : String.mk (['o', 'c', 'i'].map lowerChar) = "oci" := rfl
  rw [hsch]
  rw [takeWhile_all _ _ hnoquery]
  have hhostslash : ∀ x ∈ host.toList, (x != '/') = true := by
    intro x hx
    simp only [bne_iff_ne, ne_eq]
    exact (hhs x hx).1
  rw [urlParseAfterScheme_authority "oci" host.toList path.toList (by decide) hhostslash]
  rw [hostFromAuthority_no_at host.toList (fun x hx => (hhs x hx).2.2.2)]
  rw [mk_toList]
  rfl

theorem ParseOciUrl_error_type (s : String) (ev : KpmEvent)
    (h : ParseOciUrl s = .error ev) :
    ev.type = .IsNotUrl ∨ ev.type = .UrlSchemeNotOci := by
  cases hu : urlParse s with
  | error e =>
    have heq : ParseOciUrl s = .error ⟨.IsNotUrl, ""⟩ := by
      simp [ParseOciUrl, hu]
    rw [heq] at h
    simp only [Except.error.injEq] at h
    rw [← h]
    exact Or.inl rfl
  | ok u =>
    by_cases hs : u.scheme = "oci"
    · have heq : ParseOciUrl s = .ok ⟨u.host, u.path, "", ""⟩ := by
        simp [ParseOciUrl, hu, hs]
      rw [heq] at h
      exact absurd h (by simp)
    · have heq : ParseOciUrl s = .error ⟨.UrlSchemeNotOci, ""⟩ := by
        simp [ParseOciUrl, hu, hs]
      rw [heq] at h
      simp only [Except.error.injEq] at h
      rw [← h]
      exact Or.inr rfl

/-! ## Claim C2 -/

/-- Claim C2, counterexample: the claim says every malformed URL fails with
the unsupported-scheme error, but on the malformed input consisting of a bare
colon (Go net/url reports a missing protocol scheme) ParseOciUrl fails with
the distinct IsNotUrl event instead of the UrlSchemeNotOci event. -/
theorem ParseOciUrl_malformed_counterexample :
    ParseOciUrl ":" = .error ⟨.IsNotUrl, ""⟩ ∧
    (⟨.IsNotUrl, ""⟩ : KpmEvent) ≠ ⟨.UrlSchemeNotOci, ""⟩ :=
  ⟨rfl, by decide⟩

/-- Claim C2 as amended: ParseOciUrl succeeds exactly on inputs that parse as
URLs whose (lowercased) scheme is oci, yielding host equal to the URL
authority, repository path equal to the URL path and an empty tag; a
well-formed URL with any other scheme fails with the UrlSchemeNotOci
(unsupported scheme) event, while a malformed URL fails with the distinct
IsNotUrl event. -/
theorem ParseOciUrl_cases (s : String) :
    (∀ u, urlParse s = .ok u → u.scheme = "oci" →
        ParseOciUrl s = .ok ⟨u.host, u.path, "", ""⟩) ∧
    (∀ u, urlParse s = .ok u → u.scheme ≠ "oci" →
        ParseOciUrl s = .error ⟨.UrlSchemeNotOci, ""⟩) ∧
    (∀ e, urlParse s = .error e → ParseOciUrl s = .error ⟨.IsNotUrl, ""⟩) := by
  refine ⟨fun u hu hs => ?_, fun u hu hs => ?_, fun e he => ?_⟩
  · simp [ParseOciUrl, hu, hs]
  · simp [ParseOciUrl, hu, hs]
  · simp [ParseOciUrl, he]

/-- Claim C2, witness: the amended theorem applied to the concrete URL of the
specification example and to a concrete http URL. -/
theorem ParseOciUrl_cases_witness :
    ParseOciUrl "oci://ghcr.io/kcl-lang/mypkg" = .ok ⟨"ghcr.io", "/kcl-lang/mypkg", "", ""⟩ ∧
    ParseOciUrl "http://docker.io/x" = .error ⟨.UrlSchemeNotOci, ""⟩ :=
  ⟨(ParseOciUrl_cases "oci://ghcr.io/kcl-lang/mypkg").1
      ⟨"oci", "ghcr.io", "/kcl-lang/mypkg"⟩ rfl rfl,
   (ParseOciUrl_cases "http://docker.io/x").2.1
      ⟨"http", "docker.io", "/x"⟩ rfl (by decide)⟩

theorem ParseOciRef_two_seg (st : Settings) (oci : String) (a b : String)
    (hst : st.ErrorEvent = none)
    (hsplit : (splitOnColon oci.toList).map String.mk = [a, b]) :
    ParseOciRef st oci = .ok ⟨st.DefaultOciRegistry, a, b, ""⟩ := by
  have hab2 : (splitOnColon oci.data).map String.mk = [a, b] := hsplit
  simp [ParseOciRef, hst, hab2]

/-! ## Claim C3 -/

/-- Claim C3: with a clean settings diagnostic, splitting the reference on the
colon separator yields, for one segment, a coordinate with only the repository
set and the host defaulted; for two segments, repository plus tag with the
host defaulted; and for more than two segments the NotAReferenceError
(IsNotRef) failure. -/
theorem ParseOciRef_segments (st : Settings) (ref : String)
    (h : st.ErrorEvent = none) :
    (∀ a, (splitOnColon ref.toList).map String.mk = [a] →
        ParseOciRef st ref = .ok ⟨st.DefaultOciRegistry, a, "", ""⟩) ∧
    (∀ a b, (splitOnColon ref.toList).map String.mk = [a, b] →
        ParseOciRef st ref = .ok ⟨st.DefaultOciRegistry, a, b, ""⟩) ∧
    (2 < ((splitOnColon ref.toList).map String.mk).length →
        ParseOciRef st ref = .error (.eventErr ⟨.IsNotRef, ""⟩)) := by
  refine ⟨fun a ha => ?_, fun a b hab => ?_, fun hlen => ?_⟩
  · have ha2 : (splitOnColon ref.data).map String.mk = [a] := ha
    simp [ParseOciRef, h, ha2]
  · exact ParseOciRef_two_seg st ref a b h hab
  · rcases hl : (splitOnColon ref.toList).map String.mk with _ | ⟨x, _ | ⟨y, _ | ⟨z, t⟩⟩⟩
    · rw [hl] at hlen
      simp at hlen
    · rw [hl] at hlen
      simp at hlen
    · rw [hl] at hlen
      simp at hlen
    · have hl2 : (splitOnColon ref.data).map String.mk = x :: y :: z :: t := hl
      simp [ParseOciRef, h, hl2]

/-- Claim C3, witness: the theorem applied to the two specification
examples with the default settings. -/
theorem ParseOciRef_segments_witness :
    ParseOciRef testSettings "mypkg:v1.0.0" = .ok ⟨"ghcr.io", "mypkg", "v1.0.0", ""⟩ ∧
    ParseOciRef testSettings "a:b:c" = .error (.eventErr ⟨.IsNotRef, ""⟩) ∧
    ParseOciRef testSettings "mypkg" = .ok ⟨"ghcr.io", "mypkg", "", ""⟩ :=
  ⟨(ParseOciRef_segments testSettings "mypkg:v1.0.0" rfl).2.1 "mypkg" "v1.0.0" (by decide),
   (ParseOciRef_segments testSettings "a:b:c" rfl).2.2 (by decide),
   (ParseOciRef_segments testSettings "mypkg" rfl).1 "mypkg" (by decide)⟩

/-! ## Claim C7 -/

/-- Claim C7: for a compact reference input carrying an explicit tag (the URL
parse failed, so the reference path is taken, and the split has two
segments), a non-empty tag argument is ignored in favor of the parsed tag:
the result carries the tag from the reference string whatever the override
was, and the two warning lines about the ignored override are printed. -/
theorem ParseOciOptionFromString_tag_precedence (st : Settings) (oci tag : String)
    (ev : KpmEvent) (a b : String)
    (hst : st.ErrorEvent = none)
    (hurl : ParseOciUrl oci = .error ev)
    (hsplit : (splitOnColon oci.toList).map String.mk = [a, b])
    (htag : tag.length ≠ 0) :
    ParseOciOptionFromString st oci tag
      = .ok (⟨st.DefaultOciRegistry, a, b, ""⟩, tagIgnoredWarnings) := by
  have hty := ParseOciUrl_error_type oci ev hurl
  have href : ParseOciRef st oci = .ok ⟨st.DefaultOciRegistry, a, b, ""⟩ :=
    ParseOciRef_two_seg st oci a b hst hsplit
  rcases hty with hty | hty <;>
    simp [ParseOciOptionFromString, hurl, hty, href, htag]

/-- Claim C7, witness: the reference mypkg:v1.0.0 with the override v9.9.9
parses to the tag v1.0.0 from the reference, and the warnings are printed. -/
theorem ParseOciOptionFromString_tag_precedence_witness :
    ParseOciOptionFromString testSettings "mypkg:v1.0.0" "v9.9.9"
      = .ok (⟨"ghcr.io", "mypkg", "v1.0.0", ""⟩, tagIgnoredWarnings) :=
  ParseOciOptionFromString_tag_precedence testSettings "mypkg:v1.0.0" "v9.9.9"
    ⟨.UrlSchemeNotOci, ""⟩ "mypkg" "v1.0.0" rfl rfl (by decide) (by decide)

/-! ## Claim C10 -/

/-- Claim C10: whenever ParseOciOptionFromOciUrl succeeds, the Tag of the
result is exactly the tag argument (an empty argument stays empty and is
never defaulted to latest) and the Repo is exactly the path of the parsed
URL, so a colon suffix inside the URL stays in the repository path and is
never read as a tag. -/
theorem ParseOciOptionFromOciUrl_tag_exact (url tag : String) (o : OciOptions)
    (h : ParseOciOptionFromOciUrl url tag = .ok o) :
    o.Tag = tag ∧
    ∃ u, urlParse url = .ok u ∧ u.scheme = "oci" ∧ o.Repo = u.path ∧ o.Reg = u.host := by
  cases hu : urlParse url with
  | error e =>
    have heq : ParseOciOptionFromOciUrl url tag = .error ⟨.IsNotUrl, ""⟩ := by
      simp [ParseOciOptionFromOciUrl, ParseOciUrl, hu]
    rw [heq] at h
    exact absurd h (by simp)
  | ok u =>
    by_cases hs : u.scheme = "oci"
    · have heq : ParseOciOptionFromOciUrl url tag = .ok ⟨u.host, u.path, tag, ""⟩ := by
        simp [ParseOciOptionFromOciUrl, ParseOciUrl, hu, hs]
      rw [heq] at h
      simp only [Except.ok.injEq] at h
      refine ⟨?_, u, rfl, hs, ?_, ?_⟩ <;> rw [← h]
    · have heq : ParseOciOptionFromOciUrl url tag = .error ⟨.UrlSchemeNotOci, ""⟩ := by
        simp [ParseOciOptionFromOciUrl, ParseOciUrl, hu, hs]
      rw [heq] at h
      exact absurd h (by simp)

/-- Claim C10, witness: a URL whose path carries a colon suffix, with an
empty tag argument: the suffix stays in Repo and the Tag stays empty. -/
theorem ParseOciOptionFromOciUrl_tag_exact_witness :
    (⟨"ghcr.io", "/kcl-lang/mypkg:v1", "", ""⟩ : OciOptions).Tag = "" ∧
    ∃ u, urlParse "oci://ghcr.io/kcl-lang/mypkg:v1" = .ok u ∧ u.scheme = "oci" ∧
      (⟨"ghcr.io", "/kcl-lang/mypkg:v1", "", ""⟩ : OciOptions).Repo = u.path ∧
      (⟨"ghcr.io", "/kcl-lang/mypkg:v1", "", ""⟩ : OciOptions).Reg = u.host :=
  ParseOciOptionFromOciUrl_tag_exact "oci://ghcr.io/kcl-lang/mypkg:v1" ""
    ⟨"ghcr.io", "/kcl-lang/mypkg:v1", "", ""⟩ rfl

theorem JoinPath_eq (p n : String)
    (hp : ∀ c ∈ p.toList, c ≠ '/') (hn : ∀ c ∈ n.toList, c ≠ '/') :
    JoinPath p n = String.mk (p.toList ++ '/' :: n.toList) := by
  unfold JoinPath
  rw [trimSlashEnd_eq p.toList hp, trimSlashStart_eq n.toList hn]

theorem urlString_length_ne_zero (host path : String) :
    (urlString ⟨"oci", host, path⟩).length ≠ 0 := by
  unfold urlString
  rw [if_neg (show ¬ ("oci" : String) = "" by decide)]
  have h4 : ("oci:" : String).length = 4 := rfl
  simp [String.length_append, h4]

/-! ## Helper lemmas: pipeline state -/

theorem mem_addPath_self (p : String) (fs : List String) : p ∈ addPath p fs := by
  unfold addPath
  by_cases h : p ∈ fs <;> simp [h]

theorem not_mem_removePath_self (p : String) (fs : List String) :
    p ∉ removePath p fs := by
  unfold removePath
  simp

theorem not_mem_removePath (q p : String) (fs : List String) (h : q ∉ fs) :
    q ∉ removePath p fs := by
  unfold removePath
  intro hc
  exact h (List.mem_of_mem_filter hc)

theorem removeAll_fs (env : PipeEnv) (p : String) (st : PipeState)
    (h : env.removeFails p = false) :
    (removeAll env p st).2.fs = removePath p st.fs := by
  simp [removeAll, h]

theorem removeAll_reports (env : PipeEnv) (p : String) (st : PipeState) :
    (removeAll env p st).2.reports = st.reports := by
  unfold removeAll
  split <;> rfl

theorem removeAll_pushed (env : PipeEnv) (p : String) (st : PipeState) :
    (removeAll env p st).2.pushed = st.pushed := by
  unfold removeAll
  split <;> rfl

theorem cleanupIf_reports (env : PipeEnv) (p : String) (st : PipeState) :
    (if p ∈ st.fs then (removeAll env p st).2 else st).reports = st.reports := by
  by_cases h : p ∈ st.fs <;> simp [h, removeAll_reports]

theorem cleanupIf_pushed (env : PipeEnv) (p : String) (st : PipeState) :
    (if p ∈ st.fs then (removeAll env p st).2 else st).pushed = st.pushed := by
  by_cases h : p ∈ st.fs <;> simp [h, removeAll_pushed]

theorem cleanupIf_not_mem (env : PipeEnv) (p : String) (st : PipeState)
    (h : env.removeFails p = false) :
    p ∉ (if p ∈ st.fs then (removeAll env p st).2 else st).fs := by
  by_cases hm : p ∈ st.fs
  · rw [if_pos hm, removeAll_fs env p st h]
    exact not_mem_removePath_self p st.fs
  · rw [if_neg hm]
    exact hm

theorem cleanupIf_preserves_not_mem (env : PipeEnv) (p q : String) (st : PipeState)
    (h : q ∉ st.fs) :
    q ∉ (if p ∈ st.fs then (removeAll env p st).2 else st).fs := by
  by_cases hm : p ∈ st.fs
  · rw [if_pos hm]
    unfold removeAll
    by_cases hf : env.removeFails p
    · simpa [hf] using h
    · simp only [hf, if_neg Bool.false_ne_true, if_false]
      exact not_mem_removePath q p st.fs h
  · rw [if_neg hm]
    exact h

theorem pushResolveAndPush_fs (env : PipeEnv) (k : KclPkg) (tar u : String)
    (st : PipeState) : (pushResolveAndPush env k tar u st).2.fs = st.fs := by
  cases h : ParseOciOptionFromOciUrl u k.pkgTag with
  | error e => simp [pushResolveAndPush, h]
  | ok o =>
    cases hp : env.pushResult <;> simp [pushResolveAndPush, ociPush, h, hp]

theorem pushPackageBody_fs (env : PipeEnv) (settings : Settings) (u0 : String)
    (k : KclPkg) (tar : String) (st : PipeState) :
    (pushPackageBody env settings u0 k tar st).2.fs = st.fs := by
  unfold pushPackageBody
  by_cases h0 : u0.length = 0
  · rw [if_pos h0]
    cases hg : genDefaultOciUrlForKclPkg settings k with
    | error e => rfl
    | ok u =>
      by_cases hu : u.length = 0
      · simp [hu]
      · simp [hu, pushResolveAndPush_fs env k tar u st]
  · rw [if_neg h0]
    exact pushResolveAndPush_fs env k tar u0 st

theorem pushPackage_fs (env : PipeEnv) (settings : Settings) (u : String)
    (k : KclPkg) (vendor : Bool) (st : PipeState) (tar : String)
    (hpack : env.packageResult = .ok tar) (hrm : env.removeFails tar = false) :
    (pushPackage env settings u k vendor st).2.fs
      = removePath tar (addPath tar st.fs) := by
  simp only [pushPackage, packageCurrentPkgPath, hpack]
  have hbody := pushPackageBody_fs env settings u k tar
    { st with fs := addPath tar st.fs }
  rw [hbody, if_pos (mem_addPath_self tar st.fs), removeAll_fs env tar _ hrm, hbody]

/-! ## Claim C1 -/

/-- Claim C1: under the assumption that the operating-system removals
themselves succeed, after pushTarPackage returns, whatever the outcome of
each pipeline stage was, the temporary extraction directory created by
loading the archive does not exist, the staged archive path does not exist
whenever staging created it, and a failed identity load leaves the
filesystem untouched (the loader creates nothing on failure). -/
theorem pushTarPackage_cleanup (env : PipeEnv) (settings : Settings)
    (ociUrl tarArg : String) (vendor : Bool) (st : PipeState)
    (hrm : ∀ p, env.removeFails p = false) :
    (∀ k, env.loadTarResult = .ok k →
        k.homePath ∉ (pushTarPackage env settings ociUrl tarArg vendor st).2.fs) ∧
    (∀ k tar, env.loadTarResult = .ok k → env.packageResult = .ok tar →
        tar ∉ (pushTarPackage env settings ociUrl tarArg vendor st).2.fs) ∧
    (∀ e, env.loadTarResult = .error e →
        (pushTarPackage env settings ociUrl tarArg vendor st).2.fs = st.fs) := by
  refine ⟨fun k hk => ?_, fun k tar hk hpack => ?_, fun e he => ?_⟩
  · simp only [pushTarPackage, loadKclPkgFromTar, hk]
    exact cleanupIf_not_mem env k.homePath _ (hrm k.homePath)
  · simp only [pushTarPackage, loadKclPkgFromTar, hk]
    apply cleanupIf_preserves_not_mem
    rw [pushPackage_fs env settings ociUrl k vendor _ tar hpack (hrm tar)]
    exact not_mem_removePath_self tar _
  · simp only [pushTarPackage, loadKclPkgFromTar, he]

/-- Claim C1, witness: the cleanup theorem applied to a concrete fully
successful run; neither the extraction directory nor the staged archive
remains. -/
theorem pushTarPackage_cleanup_witness :
    "/tmp/extract" ∉ (pushTarPackage envOk testSettings "oci://ghcr.io/kcl-lang/mypkg"
        "/tmp/in.tar" false pipeSt0).2.fs ∧
    "/tmp/pkg.tar" ∉ (pushTarPackage envOk testSettings "oci://ghcr.io/kcl-lang/mypkg"
        "/tmp/in.tar" false pipeSt0).2.fs :=
  ⟨(pushTarPackage_cleanup envOk testSettings "oci://ghcr.io/kcl-lang/mypkg"
      "/tmp/in.tar" false pipeSt0 (fun _ => rfl)).1 testPkg rfl,
   (pushTarPackage_cleanup envOk testSettings "oci://ghcr.io/kcl-lang/mypkg"
      "/tmp/in.tar" false pipeSt0 (fun _ => rfl)).2.1 testPkg "/tmp/pkg.tar" rfl rfl⟩

/-! ## Claim C4 -/

/-- Claim C4, counterexample: the compact reference mypkg:v1.0.0 is accepted
by reference parsing, yet the pipeline returns the unsupported-scheme error
for it: the destination resolution of pushPackage never re-parses the input
as a compact reference before returning the error, contrary to the claim. -/
theorem push_no_fallback_counterexample :
    ParseOciRef testSettings "mypkg:v1.0.0" = .ok ⟨"ghcr.io", "mypkg", "v1.0.0", ""⟩ ∧
    (pushPackage envOk testSettings "mypkg:v1.0.0" testPkg false pipeSt0).1
      = .error (.eventErr ⟨.UnsupportOciUrlScheme, "only support url scheme oci://."⟩) :=
  ⟨rfl, rfl⟩

/-- Claim C4 as amended: for every non-empty explicit destination, the
pipeline parses it only as a URL (through ParseOciOptionFromOciUrl); on any
parse failure it returns the UnsupportOciUrlScheme error immediately, without
re-parsing the input as a compact reference and without pushing.  The
URL-then-reference fallback exists only in ParseOciOptionFromString, which
accepts a valid compact reference after the URL parse fails but which the
pipeline does not call. -/
theorem pushPackage_url_only_resolution (env : PipeEnv) (settings : Settings)
    (ociUrl : String) (kclPkg : KclPkg) (vendor : Bool) (st : PipeState)
    (tar : String) (ev : KpmEvent)
    (hpack : env.packageResult = .ok tar)
    (hlen : ociUrl.length ≠ 0)
    (hurl : ParseOciUrl ociUrl = .error ev) :
    ((pushPackage env settings ociUrl kclPkg vendor st).1
      = .error (.eventErr ⟨.UnsupportOciUrlScheme, "only support url scheme oci://."⟩)) ∧
    ((pushPackage env settings ociUrl kclPkg vendor st).2.pushed = st.pushed) ∧
    (∀ stg opts, ParseOciRef stg ociUrl = .ok opts →
        ParseOciOptionFromString stg ociUrl "" = .ok (opts, [])) := by
  have hparse : ParseOciOptionFromOciUrl ociUrl kclPkg.pkgTag = .error ev := by
    simp [ParseOciOptionFromOciUrl, hurl]
  have hbody : ∀ st1, pushPackageBody env settings ociUrl kclPkg tar st1
      = (.error (.eventErr ⟨.UnsupportOciUrlScheme, "only support url scheme oci://."⟩), st1) := by
    intro st1
    unfold pushPackageBody
    rw [if_neg hlen]
    simp [pushResolveAndPush, hparse]
  refine ⟨?_, ?_, fun stg opts href => ?_⟩
  · simp only [pushPackage, packageCurrentPkgPath, hpack, hbody]
  · simp only [pushPackage, packageCurrentPkgPath, hpack, hbody]
    exact cleanupIf_pushed env tar { st with fs := addPath tar st.fs }
  · have hty := ParseOciUrl_error_type ociUrl ev hurl
    rcases hty with hty | hty <;>
      simp [ParseOciOptionFromString, hurl, hty, href]

/-- Claim C4, witness: the amended theorem applied to the concrete compact
reference, which is simultaneously accepted by ParseOciOptionFromString. -/
theorem pushPackage_url_only_resolution_witness :
    ((pushPackage envOk testSettings "mypkg:v1.0.0" testPkg false pipeSt0).1
      = .error (.eventErr ⟨.UnsupportOciUrlScheme, "only support url scheme oci://."⟩)) ∧
    ((pushPackage envOk testSettings "mypkg:v1.0.0" testPkg false pipeSt0).2.pushed = []) ∧
    ParseOciOptionFromString testSettings "mypkg:v1.0.0" ""
      = .ok (⟨"ghcr.io", "mypkg", "v1.0.0", ""⟩, []) := by
  have h := pushPackage_url_only_resolution envOk testSettings "mypkg:v1.0.0" testPkg
    false pipeSt0 "/tmp/pkg.tar" ⟨.UrlSchemeNotOci, ""⟩ rfl (by decide) rfl
  exact ⟨h.1, h.2.1, h.2.2 testSettings ⟨"ghcr.io", "mypkg", "v1.0.0", ""⟩ rfl⟩

/-! ## Claim C8 -/

theorem pushPackageBody_removeFails_irrel (env : PipeEnv) (f g : String → Bool)
    (settings : Settings) (u0 : String) (k : KclPkg) (tar : String)
    (st : PipeState) :
    pushPackageBody { env with removeFails := f } settings u0 k tar st
      = pushPackageBody { env with removeFails := g } settings u0 k tar st := rfl

theorem pushPackage_obs_removeFails (env : PipeEnv) (f g : String → Bool)
    (settings : Settings) (u : String) (k : KclPkg) (vendor : Bool)
    (st : PipeState) :
    ((pushPackage { env with removeFails := f } settings u k vendor st).1
      = (pushPackage { env with removeFails := g } settings u k vendor st).1) ∧
    ((pushPackage { env with removeFails := f } settings u k vendor st).2.reports
      = (pushPackage { env with removeFails := g } settings u k vendor st).2.reports) ∧
    ((pushPackage { env with removeFails := f } settings u k vendor st).2.pushed
      = (pushPackage { env with removeFails := g } settings u k vendor st).2.pushed) := by
  cases hp : env.packageResult with
  | error e =>
    have h1 : ({ env with removeFails := f } : PipeEnv).packageResult = .error e := hp
    have h2 : ({ env with removeFails := g } : PipeEnv).packageResult = .error e := hp
    simp [pushPackage, packageCurrentPkgPath, h1, h2]
  | ok tar =>
    have h1 : ({ env with removeFails := f } : PipeEnv).packageResult = .ok tar := hp
    have h2 : ({ env with removeFails := g } : PipeEnv).packageResult = .ok tar := hp
    simp only [pushPackage, packageCurrentPkgPath, h1, h2,
      pushPackageBody_removeFails_irrel env f g settings u k tar]
    refine ⟨rfl, ?_, ?_⟩
    · rw [cleanupIf_reports, cleanupIf_reports]
      rfl
    · rw [cleanupIf_pushed, cleanupIf_pushed]
      rfl

/-- Claim C8 as amended: once the primary result of a run exists, the outcome
of the deferred removals can never replace or mask it, and it is also never
reported: the returned result, the reporter lines and the push calls of
pushTarPackage are identical whatever the removal oracle says, because the Go
deferred functions assign the cleanup error to a local variable that is
neither returned nor reported. -/
theorem cleanup_failure_silent (env : PipeEnv) (f g : String → Bool)
    (settings : Settings) (ociUrl tarArg : String) (vendor : Bool)
    (st : PipeState) :
    ((pushTarPackage { env with removeFails := f } settings ociUrl tarArg vendor st).1
      = (pushTarPackage { env with removeFails := g } settings ociUrl tarArg vendor st).1) ∧
    ((pushTarPackage { env with removeFails := f } settings ociUrl tarArg vendor st).2.reports
      = (pushTarPackage { env with removeFails := g } settings ociUrl tarArg vendor st).2.reports) ∧
    ((pushTarPackage { env with removeFails := f } settings ociUrl tarArg vendor st).2.pushed
      = (pushTarPackage { env with removeFails := g } settings ociUrl tarArg vendor st).2.pushed) := by
  cases hl : env.loadTarResult with
  | error e =>
    have h1 : ({ env with removeFails := f } : PipeEnv).loadTarResult = .error e := hl
    have h2 : ({ env with removeFails := g } : PipeEnv).loadTarResult = .error e := hl
    simp [pushTarPackage, loadKclPkgFromTar, h1, h2]
  | ok k =>
    have h1 : ({ env with removeFails := f } : PipeEnv).loadTarResult = .ok k := hl
    have h2 : ({ env with removeFails := g } : PipeEnv).loadTarResult = .ok k := hl
    simp only [pushTarPackage, loadKclPkgFromTar, h1, h2]
    have hobs := pushPackage_obs_removeFails env f g settings ociUrl k vendor
      { st with fs := addPath k.homePath st.fs }
    refine ⟨hobs.1, ?_, ?_⟩
    · rw [cleanupIf_reports, cleanupIf_reports]
      exact hobs.2.1
    · rw [cleanupIf_pushed, cleanupIf_pushed]
      exact hobs.2.2

/-- Claim C8, counterexample: in a concrete successful run in which the
removal of the staged archive fails, the archive is indeed left behind, the
primary result stays success, and the full list of reporter lines printed by
the run contains only the push announcement: the cleanup failure is not
reported or logged anywhere, contrary to the claim that it is. -/
theorem cleanup_failure_unreported_counterexample :
    envCleanupFail.removeFails "/tmp/pkg.tar" = true ∧
    (pushTarPackage envCleanupFail testSettings "oci://ghcr.io/kcl-lang/mypkg"
        "/tmp/in.tar" false pipeSt0).1 = .ok () ∧
    "/tmp/pkg.tar" ∈ (pushTarPackage envCleanupFail testSettings
        "oci://ghcr.io/kcl-lang/mypkg" "/tmp/in.tar" false pipeSt0).2.fs ∧
    (pushTarPackage envCleanupFail testSettings "oci://ghcr.io/kcl-lang/mypkg"
        "/tmp/in.tar" false pipeSt0).2.reports
      = ["kpm: package mypkg will be pushed."] :=
  ⟨rfl, rfl, by decide, rfl⟩

/-! ## Claim C5 -/

/-- Claim C5: with an empty explicit destination the pipeline synthesizes the
default coordinate: the recorded push call carries the configured default
registry host and a repository path equal to the configured default
repository joined with the package name (as a URL path, with its leading
slash); when the configuration diagnostic is set, the run fails with the
FailedPushToOci (destination generation) error and pushes nothing; and a
generated default URL is never empty, so the empty-URL guard of the same
branch also leads to that error alone. -/
theorem pushPackage_default_destination :
    (∀ (env : PipeEnv) (settings : Settings) (kclPkg : KclPkg) (vendor : Bool)
        (st : PipeState) (tar : String),
      settings.ErrorEvent = none →
      env.packageResult = .ok tar →
      settings.DefaultOciRegistry.toList ≠ [] →
      (∀ c ∈ settings.DefaultOciRegistry.toList, hostSafe c) →
      settings.DefaultOciRepo.toList ≠ [] →
      (∀ c ∈ settings.DefaultOciRepo.toList, segSafe c) →
      (∀ c ∈ kclPkg.pkgName.toList, segSafe c) →
      (pushPackage env settings "" kclPkg vendor st).2.pushed
        = st.pushed ++ [⟨tar, settings.DefaultOciRegistry,
            "/" ++ JoinPath settings.DefaultOciRepo kclPkg.pkgName, kclPkg.pkgTag⟩]) ∧
    (∀ (env : PipeEnv) (settings : Settings) (kclPkg : KclPkg) (vendor : Bool)
        (st : PipeState) (tar : String) (e : KpmEvent),
      settings.ErrorEvent = some e →
      env.packageResult = .ok tar →
      (pushPackage env settings "" kclPkg vendor st).1 = .error .failedPushToOci ∧
      (pushPackage env settings "" kclPkg vendor st).2.pushed = st.pushed) ∧
    (∀ (settings : Settings) (kclPkg : KclPkg) (u : String),
      genDefaultOciUrlForKclPkg settings kclPkg = .ok u → u.length ≠ 0) := by
  refine ⟨?_, ?_, ?_⟩
  · intro env settings kclPkg vendor st tar hok hpack hhostne hhost hprene hpre hname
    set host := settings.DefaultOciRegistry with hhostdef
    set J := JoinPath settings.DefaultOciRepo kclPkg.pkgName with hJdef
    have hJ : J = String.mk (settings.DefaultOciRepo.toList ++ '/' :: kclPkg.pkgName.toList) :=
      JoinPath_eq settings.DefaultOciRepo kclPkg.pkgName
        (fun c hc => (hpre c hc).1) (fun c hc => (hname c hc).1)
    have hJlist : J.toList = settings.DefaultOciRepo.toList ++ '/' :: kclPkg.pkgName.toList := by
      rw [hJ]
      rfl
    obtain ⟨c0, t0, hct⟩ : ∃ c0 t0, settings.DefaultOciRepo.toList = c0 :: t0 := by
      rcases hx : settings.DefaultOciRepo.toList with _ | ⟨c0, t0⟩
      · exact absurd hx hprene
      · exact ⟨c0, t0, rfl⟩
    have hpne : J.toList ≠ [] := by
      rw [hJlist, hct]
      simp
    have hhead : J.toList.head? ≠ some '/' := by
      rw [hJlist, hct]
      have hc0 : c0 ≠ '/' := (hpre c0 (by rw [hct]; exact List.mem_cons_self c0 t0)).1
      simpa using hc0
    have hps : ∀ ch ∈ J.toList, ch ≠ '#' ∧ ch ≠ '?' := by
      intro ch hch
      rw [hJlist] at hch
      rcases List.mem_append.mp hch with h | h
      · exact ⟨(hpre ch h).2.1, (hpre ch h).2.2⟩
      · rcases List.mem_cons.mp h with h | h
        · subst h
          exact ⟨by decide, by decide⟩
        · exact ⟨(hname ch h).2.1, (hname ch h).2.2⟩
    have hround := urlParse_roundtrip host J hhostne hhost hpne hhead hps
    have hgen : genDefaultOciUrlForKclPkg settings kclPkg = .ok (urlString ⟨"oci", host, J⟩) := by
      simp [genDefaultOciUrlForKclPkg, hok, Settings.DefaultOciRegistry,
        Settings.DefaultOciRepo, hhostdef, hJdef]
    have hlen2 : (urlString ⟨"oci", host, J⟩).length ≠ 0 := urlString_length_ne_zero host J
    have hparse2 : ParseOciOptionFromOciUrl (urlString ⟨"oci", host, J⟩) kclPkg.pkgTag
        = .ok ⟨host, "/" ++ J, kclPkg.pkgTag, ""⟩ := by
      simp [ParseOciOptionFromOciUrl, ParseOciUrl, hround]
    have hbody : ∀ st1 : PipeState,
        (pushPackageBody env settings "" kclPkg tar st1).2.pushed
          = st1.pushed ++ [⟨tar, host, "/" ++ J, kclPkg.pkgTag⟩] := by
      intro st1
      cases hpr : env.pushResult <;>
        simp [pushPackageBody, hgen, hlen2, pushResolveAndPush, hparse2, ociPush, hpr]
    simp only [pushPackage, packageCurrentPkgPath, hpack]
    rw [cleanupIf_pushed env tar _, hbody]
  · intro env settings kclPkg vendor st tar e hse hpack
    have hgen2 : genDefaultOciUrlForKclPkg settings kclPkg = .error (.eventErr e) := by
      simp [genDefaultOciUrlForKclPkg, hse]
    have hbody : ∀ st1 : PipeState,
        pushPackageBody env settings "" kclPkg tar st1
          = (.error .failedPushToOci, { st1 with reports := st1.reports ++ genFailReports }) := by
      intro st1
      simp [pushPackageBody, hgen2]
    constructor
    · simp only [pushPackage, packageCurrentPkgPath, hpack, hbody]
    · simp only [pushPackage, packageCurrentPkgPath, hpack, hbody]
      exact cleanupIf_pushed env tar
        { st with fs := addPath tar st.fs, reports := st.reports ++ genFailReports }
  · intro settings kclPkg u hg
    cases hse : settings.ErrorEvent with
    | some e =>
      have heq : genDefaultOciUrlForKclPkg settings kclPkg = .error (.eventErr e) := by
        simp [genDefaultOciUrlForKclPkg, hse]
      rw [heq] at hg
      exact absurd hg (by simp)
    | none =>
      have heq : genDefaultOciUrlForKclPkg settings kclPkg
          = .ok (urlString ⟨"oci", settings.DefaultOciRegistry,
              JoinPath settings.DefaultOciRepo kclPkg.pkgName⟩) := by
        simp [genDefaultOciUrlForKclPkg, hse]
      rw [heq] at hg
      simp only [Except.ok.injEq] at hg
      rw [← hg]
      exact urlString_length_ne_zero settings.DefaultOciRegistry
        (JoinPath settings.DefaultOciRepo kclPkg.pkgName)

/-- Claim C5, witness: the synthesis theorem applied to the default
configuration and the concrete package mypkg; the recorded push call goes to
ghcr.io with repository path kcl-lang/mypkg. -/
theorem pushPackage_default_destination_witness :
    (pushPackage envOk testSettings "" testPkg false pipeSt0).2.pushed
      = [⟨"/tmp/pkg.tar", "ghcr.io", "/kcl-lang/mypkg", "0.0.1"⟩] :=
  pushPackage_default_destination.1 envOk testSettings testPkg false pipeSt0
    "/tmp/pkg.tar" rfl rfl (by decide) (by decide) (by decide) (by decide) (by decide)

/-! ## Claim C6 -/

/-- Claim C6, counterexample: with the plain-HTTP override set to the value
true the flag does not resolve to true: it stays at its prior value false and
the unknown-environment-variable diagnostic naming the pair is recorded, as
pinned by TestSettingEnv, contrary to the claim that true is an accepted
truthy token. -/
theorem plain_http_true_counterexample :
    (loadSettingsFromEnv DefaultKpmConf none none (some "true")).DefaultOciPlainHttp
        = false ∧
    (loadSettingsFromEnv DefaultKpmConf none none (some "true")).ErrorEvent
        = some ⟨.UnknownEnv,
            "kpm: unknown environment variable OCI_REG_PLAIN_HTTP=true"⟩ :=
  ⟨rfl, rfl⟩

/-- Claim C6 as amended: the plain-HTTP override accepts exactly the closed
token set on and off, which resolve the flag to true and false with no
diagnostic; every other value, including true and false, leaves the whole
configuration (the flag in particular) exactly as it would be without the
override, records a diagnostic of the unknown-environment-variable kind
naming the offending KEY=VALUE pair, and settings construction still
succeeds. -/
theorem loadSettingsFromEnv_tokens :
    (∀ (conf : KpmConf) (reg repo : Option String),
      (loadSettingsFromEnv conf reg repo (some "on")).DefaultOciPlainHttp = true ∧
      (loadSettingsFromEnv conf reg repo (some "on")).ErrorEvent = none ∧
      (loadSettingsFromEnv conf reg repo (some "off")).DefaultOciPlainHttp = false ∧
      (loadSettingsFromEnv conf reg repo (some "off")).ErrorEvent = none) ∧
    (∀ (conf : KpmConf) (reg repo : Option String) (v : String),
      v ≠ "on" → v ≠ "off" →
      (loadSettingsFromEnv conf reg repo (some v)).Conf
          = (loadSettingsFromEnv conf reg repo none).Conf ∧
      (loadSettingsFromEnv conf reg repo (some v)).ErrorEvent
          = some ⟨.UnknownEnv,
              "kpm: unknown environment variable OCI_REG_PLAIN_HTTP=" ++ v⟩) := by
  constructor
  · intro conf reg repo
    cases reg <;> cases repo <;>
      simp [loadSettingsFromEnv, Settings.DefaultOciPlainHttp]
  · intro conf reg repo v hon hoff
    cases reg <;> cases repo <;>
      simp [loadSettingsFromEnv, Settings.DefaultOciPlainHttp, hon, hoff]

/-- Claim C6, witness: the amended theorem applied to the invalid value 1
with both other overrides set. -/
theorem loadSettingsFromEnv_tokens_witness :
    (loadSettingsFromEnv DefaultKpmConf (some "test_reg") (some "test_repo")
        (some "1")).Conf
      = (loadSettingsFromEnv DefaultKpmConf (some "test_reg") (some "test_repo")
          none).Conf ∧
    (loadSettingsFromEnv DefaultKpmConf (some "test_reg") (some "test_repo")
        (some "1")).ErrorEvent
      = some ⟨.UnknownEnv, "kpm: unknown environment variable OCI_REG_PLAIN_HTTP=1"⟩ :=
  loadSettingsFromEnv_tokens.2 DefaultKpmConf (some "test_reg") (some "test_repo")
    "1" (by decide) (by decide)

/-! ## Claim C9: helper lemmas -/

theorem seqOf_succ (t : Bool) (k : Nat) : seqOf t (k + 1) = seqOf t k ++ [(t, k)] := by
  simp [seqOf, List.range_succ]

theorem lockInvP1 (p1 p2 : Nat) (l : Option Bool) (log : List (Bool × Nat))
    (h1 : p1 = 0) (h2 : p2 = 0) (h3 : l = none) (h4 : log = []) :
    LockInvP p1 p2 l log := Or.inl ⟨h1, h2, h3, h4⟩

theorem lockInvP2 (p1 p2 : Nat) (l : Option Bool) (log : List (Bool × Nat))
    (h1 : 1 ≤ p1) (h2 : p1 ≤ 11) (h3 : p2 = 0) (h4 : l = some false)
    (h5 : log = seqOf false (p1 - 1)) :
    LockInvP p1 p2 l log := Or.inr (Or.inl ⟨h1, h2, h3, h4, h5⟩)

theorem lockInvP3 (p1 p2 : Nat) (l : Option Bool) (log : List (Bool × Nat))
    (h1 : 1 ≤ p2) (h2 : p2 ≤ 11) (h3 : p1 = 0) (h4 : l = some true)
    (h5 : log = seqOf true (p2 - 1)) :
    LockInvP p1 p2 l log := Or.inr (Or.inr (Or.inl ⟨h1, h2, h3, h4, h5⟩))

theorem lockInvP4 (p1 p2 : Nat) (l : Option Bool) (log : List (Bool × Nat))
    (h1 : p1 = 12) (h2 : p2 = 0) (h3 : l = none) (h4 : log = seqOf false 10) :
    LockInvP p1 p2 l log := Or.inr (Or.inr (Or.inr (Or.inl ⟨h1, h2, h3, h4⟩)))

theorem lockInvP5 (p1 p2 : Nat) (l : Option Bool) (log : List (Bool × Nat))
    (h1 : p2 = 12) (h2 : p1 = 0) (h3 : l = none) (h4 : log = seqOf true 10) :
    LockInvP p1 p2 l log :=
  Or.inr (Or.inr (Or.inr (Or.inr (Or.inl ⟨h1, h2, h3, h4⟩))))

theorem lockInvP6 (p1 p2 : Nat) (l : Option Bool) (log : List (Bool × Nat))
    (h1 : p1 = 12) (h2 : 1 ≤ p2) (h3 : p2 ≤ 11) (h4 : l = some true)
    (h5 : log = seqOf false 10 ++ seqOf true (p2 - 1)) :
    LockInvP p1 p2 l log :=
  Or.inr (Or.inr (Or.inr (Or.inr (Or.inr (Or.inl ⟨h1, h2, h3, h4, h5⟩)))))

theorem lockInvP7 (p1 p2 : Nat) (l : Option Bool) (log : List (Bool × Nat))
    (h1 : p2 = 12) (h2 : 1 ≤ p1) (h3 : p1 ≤ 11) (h4 : l = some false)
    (h5 : log = seqOf true 10 ++ seqOf false (p1 - 1)) :
    LockInvP p1 p2 l log :=
  Or.inr (Or.inr (Or.inr (Or.inr (Or.inr (Or.inr (Or.inl ⟨h1, h2, h3, h4, h5⟩))))))

theorem lockInvP8 (p1 p2 : Nat) (l : Option Bool) (log : List (Bool × Nat))
    (h1 : p1 = 12) (h2 : p2 = 12) (h3 : l = none)
    (h4 : log = seqOf false 10 ++ seqOf true 10 ∨
          log = seqOf true 10 ++ seqOf false 10) :
    LockInvP p1 p2 l log :=
  Or.inr (Or.inr (Or.inr (Or.inr (Or.inr (Or.inr (Or.inr ⟨h1, h2, h3, h4⟩))))))

theorem lockInv_init : LockInv lockInit := lockInvP1 0 0 none [] rfl rfl rfl rfl

theorem lockInv_step (s s2 : LockSt) (hs : LockStep s s2) (h : LockInv s) :
    LockInv s2 := by
  cases hs with
  | acq1 p2 log =>
    have h2 : LockInvP 0 p2 none log := h
    show LockInvP 1 p2 (some false) log
    unfold LockInvP at h2
    rcases h2 with ⟨e1, e2, e3, e4⟩ | ⟨e1, e2, e3, e4, e5⟩ | ⟨e1, e2, e3, e4, e5⟩ |
      ⟨e1, e2, e3, e4⟩ | ⟨e1, e2, e3, e4⟩ | ⟨e1, e2, e3, e4, e5⟩ |
      ⟨e1, e2, e3, e4, e5⟩ | ⟨e1, e2, e3, e4⟩
    · exact lockInvP2 _ _ _ _ (by omega) (by omega) e2 rfl (by rw [e4]; decide)
    · omega
    · exact Option.noConfusion e4
    · omega
    · exact lockInvP7 _ _ _ _ e1 (by omega) (by omega) rfl (by rw [e4]; decide)
    · omega
    · exact Option.noConfusion e4
    · omega
  | app1 k p2 l log hk =>
    have h2 : LockInvP (k + 1) p2 l log := h
    show LockInvP (k + 2) p2 l (log ++ [(false, k)])
    unfold LockInvP at h2
    rcases h2 with ⟨e1, e2, e3, e4⟩ | ⟨e1, e2, e3, e4, e5⟩ | ⟨e1, e2, e3, e4, e5⟩ |
      ⟨e1, e2, e3, e4⟩ | ⟨e1, e2, e3, e4⟩ | ⟨e1, e2, e3, e4, e5⟩ |
      ⟨e1, e2, e3, e4, e5⟩ | ⟨e1, e2, e3, e4⟩
    · omega
    · refine lockInvP2 _ _ _ _ (by omega) (by omega) e3 e4 ?_
      rw [e5]
      show seqOf false k ++ [(false, k)] = seqOf false (k + 1)
      exact (seqOf_succ false k).symm
    · omega
    · omega
    · omega
    · omega
    · refine lockInvP7 _ _ _ _ e1 (by omega) (by omega) e4 ?_
      rw [e5]
      show (seqOf true 10 ++ seqOf false k) ++ [(false, k)]
        = seqOf true 10 ++ seqOf false (k + 1)
      rw [List.append_assoc, ← seqOf_succ]
    · omega
  | rel1 p2 l log =>
    have h2 : LockInvP 11 p2 l log := h
    show LockInvP 12 p2 none log
    unfold LockInvP at h2
    rcases h2 with ⟨e1, e2, e3, e4⟩ | ⟨e1, e2, e3, e4, e5⟩ | ⟨e1, e2, e3, e4, e5⟩ |
      ⟨e1, e2, e3, e4⟩ | ⟨e1, e2, e3, e4⟩ | ⟨e1, e2, e3, e4, e5⟩ |
      ⟨e1, e2, e3, e4, e5⟩ | ⟨e1, e2, e3, e4⟩
    · omega
    · exact lockInvP4 _ _ _ _ rfl e3 rfl e5
    · omega
    · omega
    · omega
    · omega
    · exact lockInvP8 _ _ _ _ rfl e1 rfl (Or.inr e5)
    · omega
  | acq2 p1 log =>
    have h2 : LockInvP p1 0 none log := h
    show LockInvP p1 1 (some true) log
    unfold LockInvP at h2
    rcases h2 with ⟨e1, e2, e3, e4⟩ | ⟨e1, e2, e3, e4, e5⟩ | ⟨e1, e2, e3, e4, e5⟩ |
      ⟨e1, e2, e3, e4⟩ | ⟨e1, e2, e3, e4⟩ | ⟨e1, e2, e3, e4, e5⟩ |
      ⟨e1, e2, e3, e4, e5⟩ | ⟨e1, e2, e3, e4⟩
    · exact lockInvP3 _ _ _ _ (by omega) (by omega) e1 rfl (by rw [e4]; decide)
    · exact Option.noConfusion e4
    · omega
    · exact lockInvP6 _ _ _ _ e1 (by omega) (by omega) rfl (by rw [e4]; decide)
    · omega
    · omega
    · omega
    · omega
  | app2 k p1 l log hk =>
    have h2 : LockInvP p1 (k + 1) l log := h
    show LockInvP p1 (k + 2) l (log ++ [(true, k)])
    unfold LockInvP at h2
    rcases h2 with ⟨e1, e2, e3, e4⟩ | ⟨e1, e2, e3, e4, e5⟩ | ⟨e1, e2, e3, e4, e5⟩ |
      ⟨e1, e2, e3, e4⟩ | ⟨e1, e2, e3, e4⟩ | ⟨e1, e2, e3, e4, e5⟩ |
      ⟨e1, e2, e3, e4, e5⟩ | ⟨e1, e2, e3, e4⟩
    · omega
    · omega
    · refine lockInvP3 _ _ _ _ (by omega) (by omega) e3 e4 ?_
      rw [e5]
      show seqOf true k ++ [(true, k)] = seqOf true (k + 1)
      exact (seqOf_succ true k).symm
    · omega
    · omega
    · refine lockInvP6 _ _ _ _ e1 (by omega) (by omega) e4 ?_
      rw [e5]
      show (seqOf false 10 ++ seqOf true k) ++ [(true, k)]
        = seqOf false 10 ++ seqOf true (k + 1)
      rw [List.append_assoc, ← seqOf_succ]
    · omega
    · omega
  | rel2 p1 l log =>
    have h2 : LockInvP p1 11 l log := h
    show LockInvP p1 12 none log
    unfold LockInvP at h2
    rcases h2 with ⟨e1, e2, e3, e4⟩ | ⟨e1, e2, e3, e4, e5⟩ | ⟨e1, e2, e3, e4, e5⟩ |
      ⟨e1, e2, e3, e4⟩ | ⟨e1, e2, e3, e4⟩ | ⟨e1, e2, e3, e4, e5⟩ |
      ⟨e1, e2, e3, e4, e5⟩ | ⟨e1, e2, e3, e4⟩
    · omega
    · omega
    · exact lockInvP5 _ _ _ _ rfl e3 rfl e5
    · omega
    · omega
    · exact lockInvP8 _ _ _ _ e1 rfl rfl (Or.inl e5)
    · omega
    · omega

theorem lockInv_of_reach (s : LockSt) (h : LockReach lockInit s) : LockInv s := by
  induction h with
  | refl => exact lockInv_init
  | tail hr hs ih => exact lockInv_step _ _ hs ih

/-! ## Claim C9 -/

/-- Claim C9: in every state reachable from the initial state of the
TestPackageCacheLock program, the two goroutines are never both inside their
critical sections (at most one holder at any instant), and in every final
state (both goroutines done) the shared list equals one of the two fully
sequential orders: all ten lines of goroutine 1 then all ten of goroutine 2,
or the reverse, never an interleaving. -/
theorem cacheLock_mutual_exclusion (s : LockSt) (h : LockReach lockInit s) :
    (¬ (1 ≤ s.pc1 ∧ s.pc1 ≤ 11 ∧ 1 ≤ s.pc2 ∧ s.pc2 ≤ 11)) ∧
    (s.pc1 = 12 → s.pc2 = 12 →
      s.log = seqOf false 10 ++ seqOf true 10 ∨
        s.log = seqOf true 10 ++ seqOf false 10) := by
  have hinv : LockInvP s.pc1 s.pc2 s.lock s.log := lockInv_of_reach s h
  unfold LockInvP at hinv
  constructor
  · rintro ⟨ha, hb, hc, hd⟩
    rcases hinv with ⟨e1, e2, e3, e4⟩ | ⟨e1, e2, e3, e4, e5⟩ | ⟨e1, e2, e3, e4, e5⟩ |
      ⟨e1, e2, e3, e4⟩ | ⟨e1, e2, e3, e4⟩ | ⟨e1, e2, e3, e4, e5⟩ |
      ⟨e1, e2, e3, e4, e5⟩ | ⟨e1, e2, e3, e4⟩ <;> omega
  · intro h12 h22
    rcases hinv with ⟨e1, e2, e3, e4⟩ | ⟨e1, e2, e3, e4, e5⟩ | ⟨e1, e2, e3, e4, e5⟩ |
      ⟨e1, e2, e3, e4⟩ | ⟨e1, e2, e3, e4⟩ | ⟨e1, e2, e3, e4, e5⟩ |
      ⟨e1, e2, e3, e4, e5⟩ | ⟨e1, e2, e3, e4⟩
    · omega
    · omega
    · omega
    · omega
    · omega
    · omega
    · omega
    · exact e4

/-- Claim C9, witness: the mutual-exclusion theorem applied to a concrete
complete run in which goroutine 1 runs first; its final list is one of the
two sequential orders. -/
theorem cacheLock_mutual_exclusion_witness :
    (⟨12, 12, none, seqOf false 10 ++ seqOf true 10⟩ : LockSt).log
        = seqOf false 10 ++ seqOf true 10 ∨
      (⟨12, 12, none, seqOf false 10 ++ seqOf true 10⟩ : LockSt).log
        = seqOf true 10 ++ seqOf false 10 := by
  have r0 : LockReach lockInit lockInit := Relation.ReflTransGen.refl
  have r1 : LockReach lockInit ⟨1, 0, some false, seqOf false 0⟩ :=
    r0.tail (LockStep.acq1 0 [])
  have r2 : LockReach lockInit ⟨2, 0, some false, seqOf false 1⟩ :=
    r1.tail (LockStep.app1 0 0 (some false) (seqOf false 0) (by omega))
  have r3 : LockReach lockInit ⟨3, 0, some false, seqOf false 2⟩ :=
    r2.tail (LockStep.app1 1 0 (some false) (seqOf false 1) (by omega))
  have r4 : LockReach lockInit ⟨4, 0, some false, seqOf false 3⟩ :=
    r3.tail (LockStep.app1 2 0 (some false) (seqOf false 2) (by omega))
  have r5 : LockReach lockInit ⟨5, 0, some false, seqOf false 4⟩ :=
    r4.tail (LockStep.app1 3 0 (some false) (seqOf false 3) (by omega))
  have r6 : LockReach lockInit ⟨6, 0, some false, seqOf false 5⟩ :=
    r5.tail (LockStep.app1 4 0 (some false) (seqOf false 4) (by omega))
  have r7 : LockReach lockInit ⟨7, 0, some false, seqOf false 6⟩ :=
    r6.tail (LockStep.app1 5 0 (some false) (seqOf false 5) (by omega))
  have r8 : LockReach lockInit ⟨8, 0, some false, seqOf false 7⟩ :=
    r7.tail (LockStep.app1 6 0 (some false) (seqOf false 6) (by omega))
  have r9 : LockReach lockInit ⟨9, 0, some false, seqOf false 8⟩ :=
    r8.tail (LockStep.app1 7 0 (some false) (seqOf false 7) (by omega))
  have r10 : LockReach lockInit ⟨10, 0, some false, seqOf false 9⟩ :=
    r9.tail (LockStep.app1 8 0 (some false) (seqOf false 8) (by omega))
  have r11 : LockReach lockInit ⟨11, 0, some false, seqOf false 10⟩ :=
    r10.tail (LockStep.app1 9 0 (some false) (seqOf false 9) (by omega))
  have r12 : LockReach lockInit ⟨12, 0, none, seqOf false 10⟩ :=
    r11.tail (LockStep.rel1 0 (some false) (seqOf false 10))
  have r13 : LockReach lockInit ⟨12, 1, some true, seqOf false 10 ++ seqOf true 0⟩ :=
    r12.tail (LockStep.acq2 12 (seqOf false 10))
  have r14 : LockReach lockInit ⟨12, 2, some true, seqOf false 10 ++ seqOf true 1⟩ :=
    r13.tail (LockStep.app2 0 12 (some true) (seqOf false 10 ++ seqOf true 0) (by omega))
  have r15 : LockReach lockInit ⟨12, 3, some true, seqOf false 10 ++ seqOf true 2⟩ :=
    r14.tail (LockStep.app2 1 12 (some true) (seqOf false 10 ++ seqOf true 1) (by omega))
  have r16 : LockReach lockInit ⟨12, 4, some true, seqOf false 10 ++ seqOf true 3⟩ :=
    r15.tail (LockStep.app2 2 12 (some true) (seqOf false 10 ++ seqOf true 2) (by omega))
  have r17 : LockReach lockInit ⟨12, 5, some true, seqOf false 10 ++ seqOf true 4⟩ :=
    r16.tail (LockStep.app2 3 12 (some true) (seqOf false 10 ++ seqOf true 3) (by omega))
  have r18 : LockReach lockInit ⟨12, 6, some true, seqOf false 10 ++ seqOf true 5⟩ :=
    r17.tail (LockStep.app2 4 12 (some true) (seqOf false 10 ++ seqOf true 4) (by omega))
  have r19 : LockReach lockInit ⟨12, 7, some true, seqOf false 10 ++ seqOf true 6⟩ :=
    r18.tail (LockStep.app2 5 12 (some true) (seqOf false 10 ++ seqOf true 5) (by omega))
  have r20 : LockReach lockInit ⟨12, 8, some true, seqOf false 10 ++ seqOf true 7⟩ :=
    r19.tail (LockStep.app2 6 12 (some true) (seqOf false 10 ++ seqOf true 6) (by omega))
  have r21 : LockReach lockInit ⟨12, 9, some true, seqOf false 10 ++ seqOf true 8⟩ :=
    r20.tail (LockStep.app2 7 12 (some true) (seqOf false 10 ++ seqOf true 7) (by omega))
  have r22 : LockReach lockInit ⟨12, 10, some true, seqOf false 10 ++ seqOf true 9⟩ :=
    r21.tail (LockStep.app2 8 12 (some true) (seqOf false 10 ++ seqOf true 8) (by omega))
  have r23 : LockReach lockInit ⟨12, 11, some true, seqOf false 10 ++ seqOf true 10⟩ :=
    r22.tail (LockStep.app2 9 12 (some true) (seqOf false 10 ++ seqOf true 9) (by omega))
  have r24 : LockReach lockInit ⟨12, 12, none, seqOf false 10 ++ seqOf true 10⟩ :=
    r23.tail (LockStep.rel2 12 (some true) (seqOf false 10 ++ seqOf true 10))
  exact (cacheLock_mutual_exclusion ⟨12, 12, none, seqOf false 10 ++ seqOf true 10⟩
    r24).2 rfl rfl

end Kpm
